import Mathlib

/-!
# Pulsiora: shallow embedding and verification

A shallow embedding of the pulsiora CI/CD pipeline engine
(`pulsiora-core/src/models.rs`, `pulsiora-runner/src/executor.rs`,
`pulsiora-parser/src/parser.rs`) together with theorems settling the
specification claims about trigger matching, pipeline execution and
Pulsefile parsing.

Rust strings are modelled as Lean `String`; byte-indexed slicing in the
source only ever happens on ASCII data, where char indices and byte
indices agree, so the string helpers below work on `String.data`
(lists of characters). Timestamps (`DateTime<Utc>`), durations and
UUIDs are opaque to all the verified logic and are modelled as `Nat`
parameters threaded through.
-/

namespace Pulsiora

/-! ## String helpers (models of the Rust `str` methods used) -/

/-- Model of Rust `str::starts_with` (ASCII). -/
def strStartsWith (s p : String) : Bool :=
  p.data.isPrefixOf s.data

/-- Model of Rust `str::ends_with` (ASCII). -/
def strEndsWith (s p : String) : Bool :=
  p.data.isSuffixOf s.data

/-- First index at which `needle` occurs in `hay`, on char lists. -/
def listFindSub (hay needle : List Char) : Option Nat :=
  match hay with
  | [] => if needle.isEmpty then some 0 else none
  | _ :: t =>
    if needle.isPrefixOf hay then some 0
    else (listFindSub t needle).map (· + 1)

/-- Model of Rust `str::find` with a string pattern (ASCII). -/
def strFind (hay needle : String) : Option Nat :=
  listFindSub hay.data needle.data

/-- Model of the Rust slice `&s[a..b]` (ASCII, char indices). -/
def substr (s : String) (a b : Nat) : String :=
  String.mk ((s.data.drop a).take (b - a))

/-- Model of Rust `str::len` (ASCII). -/
def strLen (s : String) : Nat := s.data.length

/-- Characters treated as whitespace by the Pulsefile lexer and by
Rust `str::trim` on the ASCII inputs that occur here. -/
def isWsChar (c : Char) : Bool :=
  c == ' ' || c == '\t' || c == '\n' || c == '\r'

/-- Model of Rust `str::trim` (ASCII whitespace). -/
def strTrim (s : String) : String :=
  String.mk (((s.data.dropWhile isWsChar).reverse.dropWhile isWsChar).reverse)

/-- Model of Rust `str::strip_prefix`. -/
def stripPrefixStr (s p : String) : Option String :=
  if p.data.isPrefixOf s.data then some (String.mk (s.data.drop p.data.length))
  else none

/-- Model of Rust `str::strip_suffix`. -/
def stripSuffixStr (s p : String) : Option String :=
  if p.data.isSuffixOf s.data then
    some (String.mk (s.data.take (s.data.length - p.data.length)))
  else none

/-! ## Data model (`pulsiora-core/src/models.rs`) -/

/-- Model of `enum GitEventType` (models.rs). -/
inductive GitEventType where
  | Push
  | PullRequest
  | Merge
  | Tag
  | Release
  | BranchCreate
  | BranchDelete
deriving DecidableEq, Repr

/-- Model of `impl From<&str> for GitEventType` (models.rs lines 53-66):
total, with `_ => GitEventType::Push` as the default arm. -/
def GitEventType.fromStr (s : String) : GitEventType :=
  match s with
  | "push" => GitEventType.Push
  | "pull_request" => GitEventType.PullRequest
  | "merge" => GitEventType.Merge
  | "tag" => GitEventType.Tag
  | "release" => GitEventType.Release
  | "branch_create" => GitEventType.BranchCreate
  | "branch_delete" => GitEventType.BranchDelete
  | _ => GitEventType.Push

/-- Model of `struct Repository` (models.rs). -/
structure Repository where
  owner : String
  name : String
  full_name : String
  clone_url : String
  default_branch : String
deriving DecidableEq, Repr

/-- Model of `struct PullRequest` (models.rs). -/
structure PullRequest where
  number : Nat
  title : String
  base_branch : String
  head_branch : String
  state : String
deriving DecidableEq, Repr

/-- Model of `struct GitEvent` (models.rs). -/
structure GitEvent where
  event_type : GitEventType
  repository : Repository
  branch : Option String
  tag : Option String
  pull_request : Option PullRequest
  commit_sha : Option String
  sender : String
deriving DecidableEq, Repr

/-- Model of `struct GitTriggers` (models.rs). -/
structure GitTriggers where
  on_push : Bool
  on_pull_request : Bool
  on_merge : Bool
  on_tag : Bool
  on_release : Bool
  on_branch_create : Bool
  on_branch_delete : Bool
  branches : List String
deriving DecidableEq, Repr

/-- Model of `struct Triggers` (models.rs). -/
structure Triggers where
  git : GitTriggers
deriving DecidableEq, Repr

/-- Model of `struct Step` (models.rs). -/
structure Step where
  name : String
  run : String
  allow_failure : Bool
deriving DecidableEq, Repr

/-- Model of `struct Pipeline` (models.rs). -/
structure Pipeline where
  name : String
  version : String
  triggers : Triggers
  steps : List Step
deriving DecidableEq, Repr

/-- Model of `enum StepStatus` (models.rs). -/
inductive StepStatus where
  | Pending
  | Running
  | Success
  | Failed
  | Skipped
deriving DecidableEq, Repr

/-- Model of `struct StepResult` (models.rs); timestamps modelled as `Nat`. -/
structure StepResult where
  step_name : String
  status : StepStatus
  stdout : String
  stderr : String
  exit_code : Option Int
  duration_ms : Nat
  started_at : Nat
  completed_at : Option Nat
deriving DecidableEq, Repr

/-- Model of `enum PipelineStatus` (models.rs). -/
inductive PipelineStatus where
  | Pending
  | Running
  | Success
  | Failed
  | Cancelled
  | Skipped
deriving DecidableEq, Repr

/-- Model of `struct PipelineExecution` (models.rs); the `Uuid` id and the
timestamps are modelled as `Nat`. -/
structure PipelineExecution where
  id : Nat
  pipeline_name : String
  pipeline_version : String
  repository : Repository
  git_event : GitEvent
  status : PipelineStatus
  step_results : List StepResult
  started_at : Nat
  completed_at : Option Nat
deriving DecidableEq, Repr

/-- Model of `impl Default for GitTriggers` (models.rs lines 148-161). -/
def GitTriggers.default : GitTriggers :=
  { on_push := false
    on_pull_request := false
    on_merge := false
    on_tag := false
    on_release := false
    on_branch_create := false
    on_branch_delete := false
    branches := ["*"] }

/-- Model of `GitTriggers::matches_branch` (models.rs lines 208-227): empty
pattern list matches nothing; each pattern matches on `"*"`, on exact
equality, or — when it ends in `"/*"` — when the branch starts with
the pattern minus its final two characters. -/
def GitTriggers.matches_branch (t : GitTriggers) (branch : String) : Bool :=
  if t.branches.isEmpty then false
  else
    t.branches.any fun pattern =>
      if pattern == "*" then true
      else if pattern == branch then true
      else if strEndsWith pattern "/*" then
        strStartsWith branch (substr pattern 0 (strLen pattern - 2))
      else false

/-- Model of `GitTriggers::matches` (models.rs lines 180-205): the event kind's
flag must be set; then a branch delegates to `matches_branch`, a tag
(with no branch) returns `on_tag`, and neither returns `true`. -/
def GitTriggers.matches (t : GitTriggers) (event : GitEvent) : Bool :=
  let event_matches :=
    match event.event_type with
    | GitEventType.Push => t.on_push
    | GitEventType.PullRequest => t.on_pull_request
    | GitEventType.Merge => t.on_merge
    | GitEventType.Tag => t.on_tag
    | GitEventType.Release => t.on_release
    | GitEventType.BranchCreate => t.on_branch_create
    | GitEventType.BranchDelete => t.on_branch_delete
  if !event_matches then false
  else
    match event.branch with
    | some branch => t.matches_branch branch
    | none =>
      if event.tag.isSome then t.on_tag
      else true

/-! ## Step executor (`pulsiora-runner/src/executor.rs`)

`execute_step` spawns `sh -c <run>` (or `cmd /C` on Windows) and waits
for it. The OS interaction is modelled by a `SpawnOutcome` parameter:
either the process ran to termination (`ProcOutput`, with
`exitCode = none` meaning termination by signal, so that Rust's
`ExitStatus::success()` is `exitCode == some 0`), or spawning itself
failed with an error message. Timestamps and the measured duration are
likewise parameters. -/

/-- The `std::process::Output` of a successfully spawned process, with
stdout/stderr already lossily decoded to text. `exitCode = none`
models termination by signal, so `success()` is `exitCode == some 0`. -/
structure ProcOutput where
  exitCode : Option Int
  stdout : String
  stderr : String
deriving DecidableEq, Repr

/-- The result of the `Command::output()` call in `execute_step`:
`Ok` with the process output, or `Err` with the spawn error text. -/
inductive SpawnOutcome where
  | ok (output : ProcOutput)
  | err (e : String)
deriving DecidableEq, Repr

/-- Model of `PipelineExecutor::execute_step` (executor.rs lines 127-203): a
zero exit status is `Success`, anything else `Failed`; a spawn error
yields `Failed` with no exit code and the error text in `stderr`. The
call always produces a `StepResult`. -/
def execute_step (step : Step) (spawn : SpawnOutcome)
    (started_at duration_ms completed_at : Nat) : StepResult :=
  match spawn with
  | SpawnOutcome.ok output =>
    let status :=
      if output.exitCode == some 0 then StepStatus.Success
      else StepStatus.Failed
    { step_name := step.name
      status := status
      stdout := output.stdout
      stderr := output.stderr
      exit_code := output.exitCode
      duration_ms := duration_ms
      started_at := started_at
      completed_at := some completed_at }
  | SpawnOutcome.err e =>
    { step_name := step.name
      status := StepStatus.Failed
      stdout := ""
      stderr := "Failed to execute command: " ++ e
      exit_code := none
      duration_ms := duration_ms
      started_at := started_at
      completed_at := some completed_at }

/-! ## Execution engine (`PipelineExecutor::execute`, executor.rs 39-125)

`execute` awaits `execute_step` once per attempted step; the i-th such
call's `StepResult` is supplied by the oracle `outcomes : Nat →
StepResult`, which stands for the environment (shell, filesystem,
clock). The id and timestamps are `Nat` parameters. The source wraps
the record in `Ok(...)` on every path — no error is ever produced — so
the model returns the record directly. -/

/-- The step loop of `execute` (executor.rs lines 68-93): run steps in
order, appending each result; on a `Failed` result whose step has
`allow_failure = false`, append it and break with status `Failed`.
Returns the recorded results and the loop's `pipeline_status`
(`Running` unless the loop broke). -/
def execLoop (outcomes : Nat → StepResult) :
    Nat → List Step → List StepResult × PipelineStatus
  | _, [] => ([], PipelineStatus.Running)
  | i, step :: rest =>
    let step_result := outcomes i
    if step_result.status == StepStatus.Failed && !step.allow_failure then
      ([step_result], PipelineStatus.Failed)
    else
      let r := execLoop outcomes (i + 1) rest
      (step_result :: r.1, r.2)

/-- Model of `PipelineExecutor::execute` (executor.rs lines 39-125): if the
triggers do not match the event, return a `Skipped` record with no
step results; otherwise run the step loop, and if its status is still
`Running`, resolve to `Failed` when any recorded result is `Failed`
and to `Success` otherwise. -/
def execute (pipeline : Pipeline) (git_event : GitEvent)
    (execution_id started_at completed_at : Nat)
    (outcomes : Nat → StepResult) : PipelineExecution :=
  if !(pipeline.triggers.git.matches git_event) then
    { id := execution_id
      pipeline_name := pipeline.name
      pipeline_version := pipeline.version
      repository := git_event.repository
      git_event := git_event
      status := PipelineStatus.Skipped
      step_results := []
      started_at := started_at
      completed_at := some completed_at }
  else
    let step_results := (execLoop outcomes 0 pipeline.steps).1
    let loop_status := (execLoop outcomes 0 pipeline.steps).2
    let pipeline_status :=
      if loop_status == PipelineStatus.Running then
        if step_results.any (fun r => r.status == StepStatus.Failed) then
          PipelineStatus.Failed
        else
          PipelineStatus.Success
      else loop_status
    { id := execution_id
      pipeline_name := pipeline.name
      pipeline_version := pipeline.version
      repository := git_event.repository
      git_event := git_event
      status := pipeline_status
      step_results := step_results
      started_at := started_at
      completed_at := some completed_at }

/-! ## Errors (`pulsiora-core/src/error.rs`) -/

/-- Model of `enum PulsioraError` (error.rs); the `IoError` payload is
modelled as its message text. -/
inductive PulsioraError where
  | ParseError (msg : String)
  | ExecutionError (msg : String)
  | IoError (msg : String)
  | GitHubError (msg : String)
  | PipelineNotFound (msg : String)
  | InvalidConfiguration (msg : String)
  | NetworkError (msg : String)
deriving DecidableEq, Repr

/-! ## Pulsefile grammar (modelled) and parser (`pulsiora-parser/src/parser.rs`)

`parser.rs` consumes the pest parse tree produced by
`PulsefileParser::parse(Rule::file, input)`; the pest grammar itself
(`grammar.rs` / the `.pest` file) is not part of the sources, so the
grammar is modelled below from the spec's ABNF (§6) and lexical rules
(§4.1). The functions of `parser.rs` are then translated verbatim over
the resulting parse tree. -/

/-- The pest `Rule` variants that `parser.rs` inspects. -/
inductive Rule where
  | pipeline
  | pipeline_metadata
  | triggers
  | git
  | branch_list
  | steps
  | step
  | string_literal
  | multiline_string
  | boolean
deriving DecidableEq, Repr

/-- A pest parse-tree node: its rule, the exact source text it
matched (`Pair::as_str`), and its inner pairs. -/
inductive Pair where
  | mk (rule : Rule) (text : String) (children : List Pair)

/-- The rule of a parse-tree node. -/
def Pair.rule : Pair → Rule
  | Pair.mk r _ _ => r

/-- The matched source text of a parse-tree node. -/
def Pair.text : Pair → String
  | Pair.mk _ t _ => t

/-- The inner pairs of a parse-tree node. -/
def Pair.children : Pair → List Pair
  | Pair.mk _ _ c => c

/-- The opening-brace character. -/
def lbrace : Char := Char.ofNat 123

/-- The closing-brace character. -/
def rbrace : Char := Char.ofNat 125

/-- Source text consumed between two parser positions. -/
def spanText (before after : List Char) : String :=
  String.mk (before.take (before.length - after.length))

/-- Drop input up to and past the next `;`, or fail if there is none. -/
def consumeThroughSemi (cs : List Char) : Option (List Char) :=
  match cs.dropWhile (fun c => !(c == ';')) with
  | ';' :: t => some t
  | _ => none

/-- Modelled from the spec: the grammar's `string_literal` rule — a
double-quoted string with no embedded double quotes (§4.1). The
node's text keeps the quotes, as `Pair::as_str` does. -/
def parseStringLitP (cs : List Char) : Option (Pair × List Char) :=
  match cs with
  | '"' :: rest =>
    let content := rest.takeWhile (fun c => !(c == '"'))
    match rest.dropWhile (fun c => !(c == '"')) with
    | '"' :: rest3 =>
      some (Pair.mk Rule.string_literal (String.mk ('"' :: (content ++ ['"']))) [], rest3)
    | _ => none
  | _ => none

/-- Split the input at the first `"""`, returning the part before it
and the part after it; fail if no `"""` occurs. -/
def splitTriple : List Char → Option (List Char × List Char)
  | '"' :: '"' :: '"' :: rest => some ([], rest)
  | c :: rest => (splitTriple rest).map (fun p => (c :: p.1, p.2))
  | [] => none

/-- Modelled from the spec: the grammar's `multiline_string` rule —
`"""` up to the next `"""`, newlines preserved (§4.1). The node's
text keeps the delimiters. -/
def parseMultilineP (cs : List Char) : Option (Pair × List Char) :=
  match cs with
  | '"' :: '"' :: '"' :: rest =>
    match splitTriple rest with
    | some (content, rest2) =>
      some (Pair.mk Rule.multiline_string
        (String.mk ('"' :: '"' :: '"' :: (content ++ ['"', '"', '"']))) [], rest2)
    | none => none
  | _ => none

/-- Modelled from the spec: the grammar's `boolean` rule —
`true` or `false` (§6). -/
def parseBooleanP (cs : List Char) : Option (Pair × List Char) :=
  if "true".data.isPrefixOf cs then
    some (Pair.mk Rule.boolean "true" [], cs.drop 4)
  else if "false".data.isPrefixOf cs then
    some (Pair.mk Rule.boolean "false" [], cs.drop 5)
  else none

/-- Comma-separated `string_literal`s inside a bracketed list (§6);
fuel-bounded iteration (the fuel is the input length, ample since
every item consumes input). -/
def parseStringItems : Nat → List Char → Option (List Pair × List Char)
  | 0, _ => none
  | fuel + 1, cs =>
    let cs1 := cs.dropWhile isWsChar
    match parseStringLitP cs1 with
    | none => none
    | some (p, rest) =>
      let rest1 := rest.dropWhile isWsChar
      match rest1 with
      | ',' :: t => (parseStringItems fuel t).map (fun r => (p :: r.1, r.2))
      | _ => some ([p], rest1)

/-- Modelled from the spec: the grammar's `branch_list` rule —
`branches: [ "a", "b" ];` (§6); children are the string literals. -/
def parseBranchList (cs : List Char) : Option (Pair × List Char) :=
  let afterKey := cs.drop 9
  let cs1 := afterKey.dropWhile isWsChar
  match cs1 with
  | '[' :: inner =>
    match parseStringItems inner.length inner with
    | none => none
    | some (items, rest) =>
      match rest with
      | ']' :: rest2 =>
        let rest3 := rest2.dropWhile isWsChar
        match rest3 with
        | ';' :: rest4 => some (Pair.mk Rule.branch_list (spanText cs rest4) items, rest4)
        | _ => none
      | _ => none
  | _ => none

/-- The interior of a `git` block: boolean trigger fields (consumed as
raw text, as the grammar keeps no nodes for them — `parser.rs` re-scans
the block text) and an optional `branch_list` child, until the closing
brace (left unconsumed). -/
def parseGitFields : Nat → List Char → Option (List Pair × List Char)
  | 0, _ => none
  | fuel + 1, cs =>
    let cs1 := cs.dropWhile isWsChar
    match cs1 with
    | [] => none
    | c :: _ =>
      if c == rbrace then some ([], cs1)
      else if "branches:".data.isPrefixOf cs1 then
        match parseBranchList cs1 with
        | none => none
        | some (p, rest2) => (parseGitFields fuel rest2).map (fun r => (p :: r.1, r.2))
      else
        match consumeThroughSemi cs1 with
        | none => none
        | some rest2 => parseGitFields fuel rest2

/-- Modelled from the spec: the grammar's `git` rule —
`git { bool_fields... [branch_list] }` (§6). The node's text spans the
whole block, as `Pair::as_str` does. -/
def parseGit (cs : List Char) : Option (Pair × List Char) :=
  let cs1 := (cs.drop 3).dropWhile isWsChar
  match cs1 with
  | c :: body =>
    if c == lbrace then
      match parseGitFields (body.length + 1) body with
      | none => none
      | some (children, rest) =>
        match rest with
        | c2 :: rest2 =>
          if c2 == rbrace then
            some (Pair.mk Rule.git (spanText cs rest2) children, rest2)
          else none
        | [] => none
    else none
  | [] => none

/-- Modelled from the spec: the grammar's `triggers` rule —
`triggers { git { ... } }` (§6). -/
def parseTriggersBlock (cs : List Char) : Option (Pair × List Char) :=
  let cs1 := (cs.drop 8).dropWhile isWsChar
  match cs1 with
  | c :: body =>
    if c == lbrace then
      let body1 := body.dropWhile isWsChar
      if "git".data.isPrefixOf body1 then
        match parseGit body1 with
        | none => none
        | some (gitPair, rest) =>
          let rest1 := rest.dropWhile isWsChar
          match rest1 with
          | c2 :: rest2 =>
            if c2 == rbrace then
              some (Pair.mk Rule.triggers (spanText cs rest2) [gitPair], rest2)
            else none
          | [] => none
      else none
    else none
  | [] => none

/-- Modelled from the spec: the grammar's `step` rule —
`step "<name>" { run: """...""" ; [allow_failure: bool ;] }` (§6).
Children are the name literal, the multiline string, and the optional
boolean. -/
def parseStepBlock (cs : List Char) : Option (Pair × List Char) :=
  let cs1 := (cs.drop 4).dropWhile isWsChar
  match parseStringLitP cs1 with
  | none => none
  | some (namePair, rest) =>
    let rest1 := rest.dropWhile isWsChar
    match rest1 with
    | c :: body =>
      if c == lbrace then
        let body1 := body.dropWhile isWsChar
        if "run:".data.isPrefixOf body1 then
          let body2 := (body1.drop 4).dropWhile isWsChar
          match parseMultilineP body2 with
          | none => none
          | some (runPair, rest2) =>
            let rest3 := rest2.dropWhile isWsChar
            match rest3 with
            | ';' :: rest4 =>
              let rest5 := rest4.dropWhile isWsChar
              if "allow_failure:".data.isPrefixOf rest5 then
                let rest6 := (rest5.drop 14).dropWhile isWsChar
                match parseBooleanP rest6 with
                | none => none
                | some (boolPair, rest7) =>
                  let rest8 := rest7.dropWhile isWsChar
                  match rest8 with
                  | ';' :: rest9 =>
                    let rest10 := rest9.dropWhile isWsChar
                    match rest10 with
                    | c2 :: rest11 =>
                      if c2 == rbrace then
                        some (Pair.mk Rule.step (spanText cs rest11)
                          [namePair, runPair, boolPair], rest11)
                      else none
                    | [] => none
                  | _ => none
              else
                match rest5 with
                | c2 :: rest6 =>
                  if c2 == rbrace then
                    some (Pair.mk Rule.step (spanText cs rest6)
                      [namePair, runPair], rest6)
                  else none
                | [] => none
            | _ => none
        else none
      else none
    | [] => none

/-- Zero or more `step` entries inside a `steps` block, up to the
closing brace (left unconsumed); fuel-bounded. -/
def parseStepEntries : Nat → List Char → Option (List Pair × List Char)
  | 0, _ => none
  | fuel + 1, cs =>
    let cs1 := cs.dropWhile isWsChar
    match cs1 with
    | [] => none
    | c :: _ =>
      if c == rbrace then some ([], cs1)
      else if "step".data.isPrefixOf cs1 then
        match parseStepBlock cs1 with
        | none => none
        | some (p, rest) => (parseStepEntries fuel rest).map (fun r => (p :: r.1, r.2))
      else none

/-- Modelled from the spec: the grammar's `steps` rule —
`steps { step... }` (§6). -/
def parseStepsBlock (cs : List Char) : Option (Pair × List Char) :=
  let cs1 := (cs.drop 5).dropWhile isWsChar
  match cs1 with
  | c :: body =>
    if c == lbrace then
      match parseStepEntries (body.length + 1) body with
      | none => none
      | some (children, rest) =>
        match rest with
        | c2 :: rest2 =>
          if c2 == rbrace then
            some (Pair.mk Rule.steps (spanText cs rest2) children, rest2)
          else none
        | [] => none
    else none
  | [] => none

/-- Zero or more metadata fields (`name: "..."; version: "...";`) at
the start of the pipeline body (§6); returns the rest of the input.
Fuel-bounded. -/
def parseMetaFields : Nat → List Char → Option (List Char)
  | 0, cs => some cs
  | fuel + 1, cs =>
    if "name:".data.isPrefixOf cs || "version:".data.isPrefixOf cs then
      match consumeThroughSemi cs with
      | none => none
      | some rest => parseMetaFields fuel (rest.dropWhile isWsChar)
    else some cs

/-- The optional `steps` block at the end of the pipeline body. -/
def parseBodySteps (acc : List Pair) (cs : List Char) :
    Option (List Pair × List Char) :=
  let cs1 := cs.dropWhile isWsChar
  if "steps".data.isPrefixOf cs1 then
    match parseStepsBlock cs1 with
    | none => none
    | some (sp, rest) => some (acc ++ [sp], rest)
  else some (acc, cs1)

/-- Modelled from the spec: the body of the `pipeline` block —
`[metadata] [triggers] [steps]` (§6). Consecutive metadata fields form
one `pipeline_metadata` node whose text `parser.rs` re-scans. -/
def parsePipelineBody (body : List Char) : Option (List Pair × List Char) :=
  let cs1 := body.dropWhile isWsChar
  match parseMetaFields cs1.length cs1 with
  | none => none
  | some rest1 =>
    let metaChildren :=
      if rest1.length == cs1.length then ([] : List Pair)
      else [Pair.mk Rule.pipeline_metadata (spanText cs1 rest1) []]
    let cs2 := rest1.dropWhile isWsChar
    if "triggers".data.isPrefixOf cs2 then
      match parseTriggersBlock cs2 with
      | none => none
      | some (tp, rest2) => parseBodySteps (metaChildren ++ [tp]) rest2
    else parseBodySteps metaChildren cs2

/-- Modelled from the spec: `PulsefileParser::parse(Rule::file, input)`
— the grammar file is not in the sources. The `file` rule demands a
single top-level `pipeline { ... }` block and nothing else (§4.1, §6);
empty input or input lacking the `pipeline` keyword is a parse
failure. On success it yields the `pipeline` pair that
`parse_pulsefile` hands to `parse_pipeline`. -/
def pestParseFile (input : String) : Except PulsioraError Pair :=
  let cs0 := input.data.dropWhile isWsChar
  if "pipeline".data.isPrefixOf cs0 then
    let cs1 := (cs0.drop 8).dropWhile isWsChar
    match cs1 with
    | c :: body =>
      if c == lbrace then
        match parsePipelineBody body with
        | none =>
          Except.error (PulsioraError.ParseError "Parse error: malformed pipeline block")
        | some (children, rest) =>
          match rest.dropWhile isWsChar with
          | c2 :: rest2 =>
            if c2 == rbrace then
              if (rest2.dropWhile isWsChar).isEmpty then
                Except.ok (Pair.mk Rule.pipeline (spanText cs0 rest2) children)
              else
                Except.error (PulsioraError.ParseError
                  "Parse error: trailing input after pipeline block")
            else
              Except.error (PulsioraError.ParseError "Parse error: expected closing brace")
          | [] =>
            Except.error (PulsioraError.ParseError "Parse error: unterminated pipeline block")
      else
        Except.error (PulsioraError.ParseError "Parse error: expected opening brace")
    | [] =>
      Except.error (PulsioraError.ParseError "Parse error: expected opening brace")
  else
    Except.error (PulsioraError.ParseError "Parse error: expected pipeline keyword")

/-- Model of `unquote_string` (parser.rs lines 186-188): Rust
`s.trim_matches('"')` — strip all leading and trailing `"`. -/
def unquote_string (s : String) : String :=
  String.mk
    (((s.data.dropWhile (fun c => c == '"')).reverse.dropWhile (fun c => c == '"')).reverse)

/-- The `"""` delimiter. -/
def tripleQuote : String := "\"\"\""

/-- Model of `unquote_multiline_string` (parser.rs lines 190-198): trim, strip
a leading and a trailing `"""` (falling back to the original string
when a delimiter is missing, as `unwrap_or(s)` does), trim again. -/
def unquote_multiline_string (s : String) : String :=
  let trimmed := strTrim s
  let noPre := (stripPrefixStr trimmed tripleQuote).getD s
  let noSuf := (stripSuffixStr noPre tripleQuote).getD s
  strTrim noSuf

/-- The quoted-value extraction of `parse_pipeline_metadata`
(parser.rs lines 54-85), performed identically for the `name:` and
`version:` keys: find the key, find the `;` after it, locate the first
quoted run in between, and unquote it; any miss yields `""`. -/
def extractQuotedField (text key : String) : String :=
  match strFind text key with
  | none => ""
  | some start =>
    match strFind (substr text start (strLen text)) ";" with
    | none => ""
    | some e =>
      let value_str := substr text (start + strLen key) (start + e)
      match strFind value_str "\"" with
      | none => ""
      | some quote_start =>
        match strFind (substr value_str (quote_start + 1) (strLen value_str)) "\"" with
        | none => ""
        | some quote_end =>
          unquote_string (substr value_str quote_start (quote_start + quote_end + 2))

/-- Model of `parse_pipeline_metadata` (parser.rs lines 54-85): re-scan the
metadata node's raw text for `name:` and `version:`. Always `Ok` in
the source, so modelled as a plain pair. -/
def parse_pipeline_metadata (pair : Pair) : String × String :=
  (extractQuotedField pair.text "name:", extractQuotedField pair.text "version:")

/-- Model of `parse_boolean_field` (parser.rs lines 122-130): find
`<field_name>:` in the text, take up to the next `;`, trim, compare
with `"true"`; any miss yields `false`. -/
def parse_boolean_field (text field_name : String) : Bool :=
  match strFind text (field_name ++ ":") with
  | none => false
  | some start =>
    match strFind (substr text start (strLen text)) ";" with
    | none => false
    | some e =>
      strTrim (substr text (start + strLen field_name + 1) (start + e)) == "true"

/-- Model of `parse_branch_list` (parser.rs lines 132-142): unquote every
`string_literal` child, in order. -/
def parse_branch_list (pair : Pair) : List String :=
  pair.children.foldl
    (fun acc c =>
      if c.rule == Rule.string_literal then acc ++ [unquote_string c.text] else acc)
    []

/-- Model of `parse_git_triggers` (parser.rs lines 99-120): start from the
default, set each boolean flag by scanning the node's raw text, then
take the branches from a `branch_list` child if present. -/
def parse_git_triggers (pair : Pair) : GitTriggers :=
  let text := pair.text
  let triggers : GitTriggers :=
    { GitTriggers.default with
      on_push := parse_boolean_field text "on_push"
      on_pull_request := parse_boolean_field text "on_pull_request"
      on_merge := parse_boolean_field text "on_merge"
      on_tag := parse_boolean_field text "on_tag"
      on_release := parse_boolean_field text "on_release"
      on_branch_create := parse_boolean_field text "on_branch_create"
      on_branch_delete := parse_boolean_field text "on_branch_delete" }
  pair.children.foldl
    (fun t c =>
      if c.rule == Rule.branch_list then { t with branches := parse_branch_list c } else t)
    triggers

/-- Model of `parse_triggers` (parser.rs lines 87-97): the last `git` child
wins; default triggers if none. -/
def parse_triggers (pair : Pair) : Triggers :=
  { git :=
      pair.children.foldl
        (fun g c => if c.rule == Rule.git then parse_git_triggers c else g)
        GitTriggers.default }

/-- Model of `parse_step` (parser.rs lines 156-184): the first `string_literal`
child is the name, a `multiline_string` child is the run body, a
`boolean` child is `allow_failure`; the run body is trimmed once
more on construction. -/
def parse_step (pair : Pair) : Step :=
  let st : String × String × Bool :=
    pair.children.foldl
      (fun acc c =>
        match c.rule with
        | Rule.string_literal =>
          if acc.1.isEmpty then (unquote_string c.text, acc.2.1, acc.2.2) else acc
        | Rule.multiline_string => (acc.1, unquote_multiline_string c.text, acc.2.2)
        | Rule.boolean => (acc.1, acc.2.1, c.text == "true")
        | _ => acc)
      ("", "", false)
  { name := st.1, run := strTrim st.2.1, allow_failure := st.2.2 }

/-- Model of `parse_steps` (parser.rs lines 144-154): parse every `step`
child, in order. -/
def parse_steps (pair : Pair) : List Step :=
  pair.children.foldl
    (fun acc c => if c.rule == Rule.step then acc ++ [parse_step c] else acc)
    []

/-- Model of `parse_pipeline` (parser.rs lines 17-52): fold over the inner
pairs — metadata overrides name/version when non-empty, `triggers`
and `steps` nodes set their fields — then apply the `"default"` /
`"1.0"` / default-triggers fallbacks. The source never produces an
error here, but keeps the `Result` signature. -/
def parse_pipeline (pair : Pair) : Except PulsioraError Pipeline :=
  let st : String × String × Option Triggers × List Step :=
    pair.children.foldl
      (fun acc c =>
        match c.rule with
        | Rule.pipeline_metadata =>
          let nv := parse_pipeline_metadata c
          ((if !nv.1.isEmpty then nv.1 else acc.1),
           (if !nv.2.isEmpty then nv.2 else acc.2.1),
           acc.2.2.1, acc.2.2.2)
        | Rule.triggers => (acc.1, acc.2.1, some (parse_triggers c), acc.2.2.2)
        | Rule.steps => (acc.1, acc.2.1, acc.2.2.1, parse_steps c)
        | _ => acc)
      ("", "", none, [])
  Except.ok
    { name := if st.1.isEmpty then "default" else st.1
      version := if st.2.1.isEmpty then "1.0" else st.2.1
      triggers := st.2.2.1.getD { git := GitTriggers.default }
      steps := st.2.2.2 }

/-- Model of `parse_pulsefile` (parser.rs lines 6-15): run the (modelled)
grammar, then `parse_pipeline` on the resulting pipeline pair. -/
def parse_pulsefile (input : String) : Except PulsioraError Pipeline := do
  let pipeline_pair ← pestParseFile input
  parse_pipeline pipeline_pair

/-! ## Concrete fixtures used by the claims -/

/-- Triggers whose only branch pattern is `"feature/*"`. -/
def featureTriggers : GitTriggers :=
  { GitTriggers.default with branches := ["feature/*"] }

/-- A syntactically valid Pulsefile with every optional field omitted:
`pipeline { triggers { git { } } steps { } }` (with newlines and
indentation). -/
def minimalPulsefile : String :=
  "pipeline \x7b\n  triggers \x7b\n    git \x7b\n    \x7d\n  \x7d\n  steps \x7b\n  \x7d\n\x7d\n"

/-! ## Theorems for the claims -/

/-- C3 (counterexample): the claim says branch-pattern matching with
the single pattern `"feature/*"` returns false for branch `"feature"`;
on the code it returns true — the pattern's prefix before `/*` is
`"feature"`, and `"feature".starts_with("feature")` holds. -/
theorem claim_C3_counterexample :
    ¬ (featureTriggers.matches_branch "feature" = false) := by
  decide

/-- C3 (amended): branch-pattern matching with the single pattern
`"feature/*"` returns true for `"feature/abc"`, `"feature/"` and also
for the bare `"feature"` (the prefix check keeps no trailing slash),
and returns false for `"main"`. -/
theorem claim_C3 :
    featureTriggers.matches_branch "feature/abc" = true ∧
    featureTriggers.matches_branch "feature/" = true ∧
    featureTriggers.matches_branch "main" = false ∧
    featureTriggers.matches_branch "feature" = true := by
  decide

/-- C10: `From<&str> for GitEventType` is total, and every string
other than the seven recognized event names falls through the default
arm to `Push`. -/
theorem claim_C10 (s : String)
    (h : s ∉ ["push", "pull_request", "merge", "tag", "release",
              "branch_create", "branch_delete"]) :
    GitEventType.fromStr s = GitEventType.Push := by
  unfold GitEventType.fromStr
  split <;> simp_all

/-- C10 witness: the unrecognized event name `"deploy"` is treated as
a push. -/
theorem claim_C10_witness :
    "deploy" ∉ ["push", "pull_request", "merge", "tag", "release",
                "branch_create", "branch_delete"] ∧
    GitEventType.fromStr "deploy" = GitEventType.Push :=
  ⟨by decide, claim_C10 "deploy" (by decide)⟩

/-- C7: `execute_step` always produces a `StepResult` (it is a total
function of the step and the spawn outcome): exit code zero is
classified `Success`, a nonzero exit code `Failed`, and a spawn
failure yields `Failed` with no exit code and the spawn error text in
`stderr`. -/
theorem claim_C7 (step : Step) (spawn : SpawnOutcome)
    (started_at duration_ms completed_at : Nat) :
    (∀ o : ProcOutput, spawn = SpawnOutcome.ok o →
      ((o.exitCode = some 0 →
        (execute_step step spawn started_at duration_ms completed_at).status =
          StepStatus.Success) ∧
       (∀ n : Int, o.exitCode = some n → n ≠ 0 →
        (execute_step step spawn started_at duration_ms completed_at).status =
          StepStatus.Failed))) ∧
    (∀ e : String, spawn = SpawnOutcome.err e →
      (execute_step step spawn started_at duration_ms completed_at).status =
        StepStatus.Failed ∧
      (execute_step step spawn started_at duration_ms completed_at).exit_code = none ∧
      (execute_step step spawn started_at duration_ms completed_at).stderr =
        "Failed to execute command: " ++ e) := by
  constructor
  · intro o ho
    subst ho
    constructor
    · intro hz
      simp [execute_step, hz]
    · intro n hn hnz
      simp [execute_step, hn, hnz]
  · intro e he
    subst he
    simp [execute_step]

/-- C7 witness: a step whose process exits with code 1 is classified
`Failed`. -/
theorem claim_C7_witness :
    (SpawnOutcome.ok ⟨some 1, "", ""⟩ : SpawnOutcome) = SpawnOutcome.ok ⟨some 1, "", ""⟩ ∧
    (execute_step ⟨"s", "exit 1", false⟩ (SpawnOutcome.ok ⟨some 1, "", ""⟩) 0 0 0).status =
      StepStatus.Failed :=
  ⟨rfl,
   ((claim_C7 ⟨"s", "exit 1", false⟩ (SpawnOutcome.ok ⟨some 1, "", ""⟩) 0 0 0).1
     ⟨some 1, "", ""⟩ rfl).2 1 rfl (by decide)⟩

/-- C8: parsing a syntactically valid Pulsefile with all optional
fields omitted yields the name `"default"`, the version `"1.0"`, zero
steps, all seven trigger flags false, and the branch patterns
`["*"]`. (The pest grammar is modelled from the spec, §6.) -/
theorem claim_C8 :
    parse_pulsefile minimalPulsefile =
      Except.ok
        { name := "default"
          version := "1.0"
          triggers :=
            { git :=
                { on_push := false
                  on_pull_request := false
                  on_merge := false
                  on_tag := false
                  on_release := false
                  on_branch_create := false
                  on_branch_delete := false
                  branches := ["*"] } }
          steps := [] } := by
  rfl

/-! ## Engine lemmas -/

/-- The step loop's status is `Running` unless it broke on a
disallowed failure, in which case it is `Failed`. -/
theorem execLoop_status (outcomes : Nat → StepResult) :
    ∀ (i : Nat) (steps : List Step),
      (execLoop outcomes i steps).2 = PipelineStatus.Running ∨
      (execLoop outcomes i steps).2 = PipelineStatus.Failed := by
  intro i steps
  induction steps generalizing i with
  | nil => left; rfl
  | cons s rest ih =>
    simp only [execLoop]
    split
    · right; rfl
    · exact ih (i + 1)

/-- On a matched pipeline, the final status is as computed after the
loop (executor.rs lines 96-103). -/
theorem execute_status_eq (p : Pipeline) (e : GitEvent) (id t c : Nat)
    (outcomes : Nat → StepResult) (hm : p.triggers.git.matches e = true) :
    (execute p e id t c outcomes).status =
      (if (execLoop outcomes 0 p.steps).2 == PipelineStatus.Running then
        (if (execLoop outcomes 0 p.steps).1.any (fun r => r.status == StepStatus.Failed)
         then PipelineStatus.Failed else PipelineStatus.Success)
       else (execLoop outcomes 0 p.steps).2) := by
  unfold execute
  rw [hm]
  rfl

theorem execute_status_matched (p : Pipeline) (e : GitEvent) (id t c : Nat)
    (outcomes : Nat → StepResult) (hm : p.triggers.git.matches e = true) :
    (execute p e id t c outcomes).status = PipelineStatus.Failed ∨
    (execute p e id t c outcomes).status = PipelineStatus.Success := by
  rw [execute_status_eq p e id t c outcomes hm]
  rcases execLoop_status outcomes 0 p.steps with h | h
  · rw [h]
    cases hany : (execLoop outcomes 0 p.steps).1.any (fun r => r.status == StepStatus.Failed)
    · right; rfl
    · left; rfl
  · rw [h]
    left
    rfl

/-- If the first disallowed failure of the loop is at index `k`
(0-indexed), the loop records exactly the first `k + 1` results and
breaks with status `Failed`. -/
theorem execLoop_first_disallowed_failure (outcomes : Nat → StepResult) :
    ∀ (steps : List Step) (base k : Nat),
      k < steps.length →
      (outcomes (base + k)).status = StepStatus.Failed →
      (steps.getD k ⟨"", "", true⟩).allow_failure = false →
      (∀ i, i < k →
        ¬((outcomes (base + i)).status = StepStatus.Failed ∧
          (steps.getD i ⟨"", "", true⟩).allow_failure = false)) →
      (execLoop outcomes base steps).1.length = k + 1 ∧
      (execLoop outcomes base steps).2 = PipelineStatus.Failed := by
  intro steps
  induction steps with
  | nil => intro base k hk; simp at hk
  | cons s rest ih =>
    intro base k hk hfail hallow hbefore
    cases k with
    | zero =>
      have hallow0 : s.allow_failure = false := by simpa using hallow
      have hfail0 : (outcomes base).status = StepStatus.Failed := by simpa using hfail
      have hcond : ((outcomes base).status == StepStatus.Failed && !s.allow_failure) = true := by
        simp [hfail0, hallow0]
      simp [execLoop, hcond]
    | succ k' =>
      have hnot := hbefore 0 (Nat.succ_pos k')
      have hcond : ((outcomes base).status == StepStatus.Failed && !s.allow_failure) = false := by
        cases hs : (outcomes base).status == StepStatus.Failed
        · simp
        · have hsf : (outcomes base).status = StepStatus.Failed := by
            simpa using hs
          cases ha : s.allow_failure
          · exact absurd ⟨by simpa using hsf, by simpa using ha⟩ hnot
          · simp [ha]
      have hrest := ih (base + 1) k' (Nat.lt_of_succ_lt_succ hk)
        (by
          have : base + (k' + 1) = base + 1 + k' := by omega
          rw [this] at hfail
          exact hfail)
        (by simpa using hallow)
        (by
          intro i hi
          have := hbefore (i + 1) (Nat.succ_lt_succ hi)
          have harith : base + (i + 1) = base + 1 + i := by omega
          rw [harith] at this
          simpa using this)
      simp only [execLoop, hcond]
      simp [hrest.1, hrest.2]

/-! ## Fixtures for the engine claims -/

/-- The test repository used across the source's own tests. -/
def testRepo : Repository :=
  { owner := "test"
    name := "repo"
    full_name := "test/repo"
    clone_url := "https://github.com/test/repo.git"
    default_branch := "main" }

/-- A push event on branch `main`. -/
def pushMainEvent : GitEvent :=
  { event_type := GitEventType.Push
    repository := testRepo
    branch := some "main"
    tag := none
    pull_request := none
    commit_sha := none
    sender := "test" }

/-- Triggers firing on push with the default branch patterns. -/
def onPushTriggers : GitTriggers :=
  { GitTriggers.default with on_push := true }

/-- The pipeline of the source's `test_executor_continues_on_allow_failure`:
first step `exit 1` with `allow_failure: true`, second step succeeds. -/
def allowFailPipeline : Pipeline :=
  { name := "test"
    version := "1.0"
    triggers := { git := onPushTriggers }
    steps :=
      [{ name := "failing", run := "exit 1", allow_failure := true },
       { name := "success", run := "echo \"success\"", allow_failure := false }] }

/-- Step outcomes for `allowFailPipeline`: the first process exits 1,
the second exits 0 (as `execute_step` reports them). -/
def allowFailOutcomes : Nat → StepResult := fun i =>
  if i == 0 then
    execute_step { name := "failing", run := "exit 1", allow_failure := true }
      (SpawnOutcome.ok { exitCode := some 1, stdout := "", stderr := "" }) 0 0 0
  else
    execute_step { name := "success", run := "echo \"success\"", allow_failure := false }
      (SpawnOutcome.ok { exitCode := some 0, stdout := "success\n", stderr := "" }) 0 0 0

/-- A matching pipeline with zero steps. -/
def emptyStepsPipeline : Pipeline :=
  { name := "empty"
    version := "1.0"
    triggers := { git := onPushTriggers }
    steps := [] }

/-- A pipeline whose triggers never fire (all flags false). -/
def neverPipeline : Pipeline :=
  { name := "never"
    version := "1.0"
    triggers := { git := GitTriggers.default }
    steps := [] }

/-- The pipeline of the source's `test_executor_stops_on_failure`:
first step `exit 1` (`allow_failure` false), second step never runs. -/
def stopPipeline : Pipeline :=
  { name := "test"
    version := "1.0"
    triggers := { git := onPushTriggers }
    steps :=
      [{ name := "failing", run := "exit 1", allow_failure := false },
       { name := "should_not_run", run := "echo \"should not run\"", allow_failure := false }] }

/-! ## Theorems for the engine claims -/

/-- C1 (code evaluated at the failing input): on a two-step pipeline
whose first step fails with `allow_failure = true` and whose second
step succeeds, `execute` records both results (first `Failed`, second
`Success`) but resolves the final status to `Failed`, because the
final-status computation counts every recorded `Failed` result,
allowed or not. The claim (with the spec, §8, and the source's own
test `test_executor_continues_on_allow_failure`) requires `Success`
here. -/
theorem claim_C1 :
    (execute allowFailPipeline pushMainEvent 0 0 0 allowFailOutcomes).step_results.map
        (fun r => r.status) = [StepStatus.Failed, StepStatus.Success] ∧
    (execute allowFailPipeline pushMainEvent 0 0 0 allowFailOutcomes).status =
      PipelineStatus.Failed := by
  decide

/-- C2: when the step loop completes without an early stop (its status
is still `Running`), the final status is `Failed` when any recorded
result is `Failed` and `Success` otherwise; a matching pipeline with
zero steps resolves to `Success`. -/
theorem claim_C2 (p : Pipeline) (e : GitEvent) (id t c : Nat)
    (outcomes : Nat → StepResult) (hm : p.triggers.git.matches e = true) :
    ((execLoop outcomes 0 p.steps).2 = PipelineStatus.Running →
      (execute p e id t c outcomes).status =
        (if (execLoop outcomes 0 p.steps).1.any (fun r => r.status == StepStatus.Failed)
         then PipelineStatus.Failed else PipelineStatus.Success)) ∧
    (p.steps = [] →
      (execute p e id t c outcomes).status = PipelineStatus.Success) := by
  constructor
  · intro h
    simp [execute, hm, h]
  · intro hnil
    simp [execute, hm, hnil, execLoop]

/-- C2 witness: a matching pipeline with zero steps resolves to
`Success`. -/
theorem claim_C2_witness :
    emptyStepsPipeline.triggers.git.matches pushMainEvent = true ∧
    emptyStepsPipeline.steps = [] ∧
    (execute emptyStepsPipeline pushMainEvent 0 0 0 allowFailOutcomes).status =
      PipelineStatus.Success :=
  ⟨by decide, rfl,
   (claim_C2 emptyStepsPipeline pushMainEvent 0 0 0 allowFailOutcomes
     (by decide)).2 rfl⟩

/-- C4: if the first step whose result is `Failed` and whose
`allow_failure` is false sits at 0-indexed position `k` (so it is step
`k + 1` in the claim's 1-indexed counting), the execution records
exactly `k + 1` step results — later steps are absent altogether — and
the pipeline status is `Failed`. -/
theorem claim_C4 (p : Pipeline) (e : GitEvent) (id t c : Nat)
    (outcomes : Nat → StepResult) (k : Nat)
    (hm : p.triggers.git.matches e = true)
    (hk : k < p.steps.length)
    (hfail : (outcomes k).status = StepStatus.Failed)
    (hallow : (p.steps.getD k ⟨"", "", true⟩).allow_failure = false)
    (hbefore : ∀ i, i < k →
      ¬((outcomes i).status = StepStatus.Failed ∧
        (p.steps.getD i ⟨"", "", true⟩).allow_failure = false)) :
    (execute p e id t c outcomes).step_results.length = k + 1 ∧
    (execute p e id t c outcomes).status = PipelineStatus.Failed := by
  have h := execLoop_first_disallowed_failure outcomes p.steps 0 k hk
    (by simpa using hfail) hallow (by simpa using hbefore)
  constructor
  · simp [execute, hm, h.1]
  · simp [execute, hm, h.2]

/-- C4 witness: on the source's `test_executor_stops_on_failure`
pipeline — first step fails with `allow_failure` false — exactly one
result is recorded and the status is `Failed`. -/
theorem claim_C4_witness :
    stopPipeline.triggers.git.matches pushMainEvent = true ∧
    (allowFailOutcomes 0).status = StepStatus.Failed ∧
    (execute stopPipeline pushMainEvent 0 0 0 allowFailOutcomes).step_results.length = 1 ∧
    (execute stopPipeline pushMainEvent 0 0 0 allowFailOutcomes).status =
      PipelineStatus.Failed :=
  ⟨by decide, by decide,
   (claim_C4 stopPipeline pushMainEvent 0 0 0 allowFailOutcomes 0
     (by decide) (by decide) (by decide) (by decide)
     (fun i hi => absurd hi (Nat.not_lt_zero i)))⟩

/-- C5: the execution's status is `Skipped` exactly when trigger
matching fails, and in that case the step results are empty and
`completed_at` is set; a matched pipeline never resolves to
`Skipped`. -/
theorem claim_C5 (p : Pipeline) (e : GitEvent) (id t c : Nat)
    (outcomes : Nat → StepResult) :
    ((execute p e id t c outcomes).status = PipelineStatus.Skipped ↔
      p.triggers.git.matches e = false) ∧
    (p.triggers.git.matches e = false →
      (execute p e id t c outcomes).step_results = [] ∧
      (execute p e id t c outcomes).completed_at = some c) := by
  cases hm : p.triggers.git.matches e with
  | false =>
    refine ⟨?_, fun _ => ?_⟩
    · simp [execute, hm]
    · simp [execute, hm]
  | true =>
    refine ⟨?_, fun hf => ?_⟩
    · rcases execute_status_matched p e id t c outcomes hm with h | h <;> simp [h]
    · simp [hm] at hf

/-- C5 witness: a pipeline whose triggers never fire is `Skipped` with
no step results and a set `completed_at`. -/
theorem claim_C5_witness :
    neverPipeline.triggers.git.matches pushMainEvent = false ∧
    (execute neverPipeline pushMainEvent 0 0 7 allowFailOutcomes).step_results = [] ∧
    (execute neverPipeline pushMainEvent 0 0 7 allowFailOutcomes).completed_at = some 7 :=
  ⟨by decide,
   (claim_C5 neverPipeline pushMainEvent 0 0 7 allowFailOutcomes).2 (by decide)⟩

/-- The boolean flag of a `GitTriggers` for an event kind — the first
match in `GitTriggers::matches` (models.rs lines 182-190). -/
def eventFlag (t : GitTriggers) : GitEventType → Bool
  | GitEventType.Push => t.on_push
  | GitEventType.PullRequest => t.on_pull_request
  | GitEventType.Merge => t.on_merge
  | GitEventType.Tag => t.on_tag
  | GitEventType.Release => t.on_release
  | GitEventType.BranchCreate => t.on_branch_create
  | GitEventType.BranchDelete => t.on_branch_delete

/-- C6: `GitTriggers::matches` returns false immediately when the
event kind's flag is unset; otherwise a present branch delegates to
branch-pattern matching, a tag with no branch returns `on_tag`, and
neither gives true. -/
theorem claim_C6 (t : GitTriggers) (e : GitEvent) :
    (eventFlag t e.event_type = false → t.matches e = false) ∧
    (eventFlag t e.event_type = true →
      ((∀ b, e.branch = some b → t.matches e = t.matches_branch b) ∧
       (e.branch = none → e.tag.isSome = true → t.matches e = t.on_tag) ∧
       (e.branch = none → e.tag = none → t.matches e = true))) := by
  have hflag : (match e.event_type with
      | GitEventType.Push => t.on_push
      | GitEventType.PullRequest => t.on_pull_request
      | GitEventType.Merge => t.on_merge
      | GitEventType.Tag => t.on_tag
      | GitEventType.Release => t.on_release
      | GitEventType.BranchCreate => t.on_branch_create
      | GitEventType.BranchDelete => t.on_branch_delete) = eventFlag t e.event_type := by
    cases e.event_type <;> rfl
  constructor
  · intro h
    simp [GitTriggers.matches, hflag, h]
  · intro h
    refine ⟨?_, ?_, ?_⟩
    · intro b hb
      simp [GitTriggers.matches, hflag, h, hb]
    · intro hb ht
      simp [GitTriggers.matches, hflag, h, hb, ht]
    · intro hb ht
      simp [GitTriggers.matches, hflag, h, hb, ht]

/-- C6 witness: with the push flag set and branch `main` present,
`matches` is exactly branch-pattern matching on `main`. -/
theorem claim_C6_witness :
    eventFlag onPushTriggers pushMainEvent.event_type = true ∧
    pushMainEvent.branch = some "main" ∧
    onPushTriggers.matches pushMainEvent = onPushTriggers.matches_branch "main" :=
  ⟨by decide, rfl,
   ((claim_C6 onPushTriggers pushMainEvent).2 (by decide)).1 "main" rfl⟩

/-- C9: parsing the empty string yields a `ParseError`, and parsing
any text in which the `pipeline` keyword does not occur yields a
`ParseError`. (The pest grammar is modelled from the spec, §4.1/§6.) -/
theorem claim_C9 :
    (∃ msg, parse_pulsefile "" = Except.error (PulsioraError.ParseError msg)) ∧
    (∀ input : String, ¬ ("pipeline".data <:+: input.data) →
      ∃ msg, parse_pulsefile input = Except.error (PulsioraError.ParseError msg)) := by
  constructor
  · exact ⟨"Parse error: expected pipeline keyword", rfl⟩
  · intro input h
    have hpre : "pipeline".data.isPrefixOf (input.data.dropWhile isWsChar) = false := by
      cases hb : "pipeline".data.isPrefixOf (input.data.dropWhile isWsChar)
      · rfl
      · have hp := List.isPrefixOf_iff_prefix.mp hb
        have hs : input.data.dropWhile isWsChar <:+ input.data :=
          List.dropWhile_suffix isWsChar
        exact absurd (hp.isInfix.trans hs.isInfix) h
    refine ⟨"Parse error: expected pipeline keyword", ?_⟩
    simp only [parse_pulsefile, pestParseFile, hpre, Bool.false_eq_true, if_false]
    rfl

/-- C9 witness: `"hello world"` does not contain the `pipeline`
keyword and fails to parse. -/
theorem claim_C9_witness :
    ¬ ("pipeline".data <:+: "hello world".data) ∧
    ∃ msg, parse_pulsefile "hello world" =
      Except.error (PulsioraError.ParseError msg) :=
  ⟨by decide, claim_C9.2 "hello world" (by decide)⟩

end Pulsiora
